import Mathlib

/-!
Verification of the contexify context-menu library.

Shallow embedding of the library's state and operations:
  - `getMousePosition`, `getPredicateValue` from `src/utils.ts`
  - the `Menu` component's `checkBoundaries`, `show`, `hide`, keyboard
    dispatch and DOM-listener effects
  - the `Submenu` component's `setPosition`
  - the `Item` component's `handleClick` / `registerItem`
  - the pub/sub event manager used to show/hide menus by id
-/

namespace Contexify

/-- A JavaScript number as it appears in client coordinates: possibly
`undefined` (missing property), `NaN`, or an actual numeric value
(modelled as an integer, since the claims are about signs and clamping). -/
inductive JsNum where
  | undef
  | nan
  | val (x : Int)
deriving DecidableEq, Repr

/-- JavaScript truthiness test `!v` on a number: `undefined`, `NaN` and `0`
are falsy. -/
def JsNum.falsy : JsNum → Bool
  | .undef => true
  | .nan => true
  | .val x => x = 0

/-- The JavaScript comparison `v < 0`: comparisons with `undefined` or `NaN`
are false. -/
def JsNum.ltZero : JsNum → Bool
  | .undef => false
  | .nan => false
  | .val x => decide (x < 0)

/-- Numeric value of a `JsNum`, with 0 for the non-numeric cases (used only
where the source has already ruled those out). -/
def JsNum.toInt : JsNum → Int
  | .undef => 0
  | .nan => 0
  | .val x => x

/-- A trigger event (`TriggerEvent` in `src/types`): mouse events carry
`clientX`/`clientY`; touch events carry a non-empty `changedTouches` list,
of which `getMousePosition` only reads the first entry, modelled here as
`firstChangedTouch`.  `none` means the event has no `changedTouches`. -/
structure TriggerEvent where
  clientX : JsNum
  clientY : JsNum
  firstChangedTouch : Option (JsNum × JsNum)
deriving DecidableEq, Repr

/-- A screen position, as returned by `getMousePosition`. -/
structure Position where
  x : Int
  y : Int
deriving DecidableEq, Repr

/-- The `x` coordinate `getMousePosition` clamps: the mouse `clientX`,
overwritten by the first changed touch's `clientX` when the event carries
touches. -/
def rawClientX (e : TriggerEvent) : JsNum :=
  match e.firstChangedTouch with
  | some t => t.1
  | none => e.clientX

/-- The `y` coordinate `getMousePosition` clamps: the mouse `clientY`,
overwritten by the first changed touch's `clientY` when the event carries
touches. -/
def rawClientY (e : TriggerEvent) : JsNum :=
  match e.firstChangedTouch with
  | some t => t.2
  | none => e.clientY

/-- `getMousePosition` from `src/src/utils.ts`: start from the event's
`clientX`/`clientY`, overwrite with the first entry of `changedTouches`
when the event carries touches, then replace each coordinate `c` with `0`
when `!c || c < 0`. -/
def getMousePosition (e : TriggerEvent) : Position :=
  { x := if (rawClientX e).falsy || (rawClientX e).ltZero then 0 else (rawClientX e).toInt,
    y := if (rawClientY e).falsy || (rawClientY e).ltZero then 0 else (rawClientY e).toInt }

/-- `BooleanPredicate` from `src/types`: either a plain boolean or a
function of the handler params. -/
def BooleanPredicate (P : Type) : Type := Bool ⊕ (P → Bool)

/-- `getPredicateValue` from `src/src/utils.ts`. -/
def getPredicateValue {P : Type} (predicate : BooleanPredicate P) (payload : P) : Bool :=
  match predicate with
  | .inl b => b
  | .inr f => f payload

/-- The `offsetWidth`/`offsetHeight` of the menu DOM node (`nodeRef`). -/
structure NodeSize where
  offsetWidth : Int
  offsetHeight : Int
deriving DecidableEq, Repr

/-- The window's `innerWidth`/`innerHeight`. -/
structure WindowSize where
  innerWidth : Int
  innerHeight : Int
deriving DecidableEq, Repr

/-- `checkBoundaries` from the `Menu` component: when the node is attached
and boundary checking is not disabled, pull each coordinate back by the
overflow past the window edge. -/
def checkBoundaries (nodeRef : Option NodeSize) (disableBoundariesCheck : Bool)
    (win : WindowSize) (x y : Int) : Position :=
  match nodeRef, disableBoundariesCheck with
  | some node, false =>
    let x1 := if x + node.offsetWidth > win.innerWidth
      then x - (x + node.offsetWidth - win.innerWidth) else x
    let y1 := if y + node.offsetHeight > win.innerHeight
      then y - (y + node.offsetHeight - win.innerHeight) else y
    { x := x1, y := y1 }
  | _, _ => { x := x, y := y }

/-- The `Menu` component's reducer state (`MenuState`), generic in the
type `P` of `propsFromTrigger` (which is `any` in the source). -/
structure MenuState (P : Type) where
  x : Int
  y : Int
  visible : Bool
  triggerEvent : TriggerEvent
  propsFromTrigger : P
  willLeave : Bool
deriving DecidableEq, Repr

/-- `ShowContextMenuParams` destructured by `show`: the trigger event, the
props to forward, and an optional explicit position. -/
structure ShowContextMenuParams (P : Type) where
  event : TriggerEvent
  props : P
  position : Option Position
deriving DecidableEq, Repr

/-- The `show` handler's state transition: the position is the explicit
`position` argument when given, otherwise `getMousePosition` of the trigger
event (JavaScript `position || getMousePosition(event)`; a position object
is always truthy); it is then passed through `checkBoundaries`, and the
state is set visible with the trigger event and props recorded. -/
def showTransition {P : Type} (nodeRef : Option NodeSize) (disableBoundariesCheck : Bool)
    (win : WindowSize) (params : ShowContextMenuParams P) (s : MenuState P) : MenuState P :=
  let p := params.position.getD (getMousePosition params.event)
  let q := checkBoundaries nodeRef disableBoundariesCheck win p.x p.y
  { s with
      visible := true
      willLeave := false
      x := q.x
      y := q.y
      triggerEvent := params.event
      propsFromTrigger := params.props }

/-- The event passed to `hide`: `button` is `some b` when the event has a
`button` property (mouse events), `none` otherwise; `ctrlKey` is falsy when
absent; `type` is the DOM event type string. -/
structure HideEvent where
  button : Option Int
  ctrlKey : Bool
  type : String
deriving DecidableEq, Repr

/-- The guard at the top of `hide`: a non-null event with `button === 2` or
`ctrlKey` set, whose `type` is not `"contextmenu"`, makes `hide` return
immediately. -/
def hideEarlyReturn (e : HideEvent) : Bool :=
  (e.button = some 2 || e.ctrlKey) && e.type != "contextmenu"

/-- The `hide` handler's state transition: early-return on the Safari/Firefox
guard, otherwise dispatch the functional update
`state => ({ visible: state.visible ? false : state.visible })`, which the
reducer merges into the state. -/
def hide {P : Type} (e : Option HideEvent) (s : MenuState P) : MenuState P :=
  match e with
  | some ev =>
    if hideEarlyReturn ev then s
    else { s with visible := if s.visible then false else s.visible }
  | none => { s with visible := if s.visible then false else s.visible }

/-- An observable effect of the `Menu`'s `handleKeyboard` handler: a call
into the keyboard controller, a `hide`, or `e.preventDefault()`. -/
inductive KeyEffect where
  | prevDefault
  | moveUp
  | moveDown
  | openSubmenu
  | closeSubmenu
  | hideMenu
  | matchKeys
deriving DecidableEq, Repr

/-- `handleKeyboard` from the `Menu` component, as the sequence of effects
it performs for a given `e.key`.  `openSubmenuResult` is the boolean
returned by `menuController.openSubmenu()` (the keyboard controller itself
is outside this embedding); `preventDefaultOnKeydown` is the `Menu` prop
guarding `e.preventDefault()`. -/
def handleKeyboard (preventDefaultOnKeydown : Bool) (openSubmenuResult : Bool)
    (key : String) : List KeyEffect :=
  let pd : List KeyEffect := if preventDefaultOnKeydown then [.prevDefault] else []
  if key = "Enter" ∨ key = " " then
    .openSubmenu :: (if openSubmenuResult then [] else [.hideMenu])
  else if key = "Escape" then
    [.hideMenu]
  else if key = "ArrowUp" then
    pd ++ [.moveUp]
  else if key = "ArrowDown" then
    pd ++ [.moveDown]
  else if key = "ArrowRight" then
    pd ++ [.openSubmenu]
  else if key = "ArrowLeft" then
    pd ++ [.closeSubmenu]
  else
    [.matchKeys]

/-- `hideOnEvents` from `src/constants`: the window events a visible menu
subscribes `hide` to. -/
def hideOnEvents : List String :=
  ["resize", "contextmenu", "click", "scroll", "blur"]

/-- A mounted `Menu` together with the DOM listeners currently registered by
its `subscribe dom events` effect: whether the window `keydown` handler is
attached, and the list of window events carrying the `hide` listener. -/
structure MenuWorld (P : Type) where
  st : MenuState P
  keydownRegistered : Bool
  hideListeners : List String
deriving DecidableEq, Repr

/-- The `subscribe dom events` effect (dependencies `[state.visible, ...]`):
after a render it leaves the `keydown` handler and the `hideOnEvents`
listeners registered exactly when the menu is visible. -/
def applyDomEffect {P : Type} (w : MenuWorld P) : MenuWorld P :=
  { w with
      keydownRegistered := w.st.visible
      hideListeners := if w.st.visible then hideOnEvents else [] }

/-- The boundary-fixup effect (dependency `[state.visible]`): when the menu
is visible, dispatch `checkBoundaries(state.x, state.y)`, which the reducer
merges into the state (it only carries `x` and `y`). -/
def boundariesUpdate {P : Type} (nodeRef : Option NodeSize) (disableBoundariesCheck : Bool)
    (win : WindowSize) (s : MenuState P) : MenuState P :=
  if s.visible then
    let q := checkBoundaries nodeRef disableBoundariesCheck win s.x s.y
    { s with x := q.x, y := q.y }
  else s

/-- The state transitions a mounted `Menu` can take: a `show` handler call,
a `hide` handler call, or the boundary-fixup effect. -/
inductive MenuTransition (P : Type) where
  | showT (nodeRef : Option NodeSize) (win : WindowSize) (params : ShowContextMenuParams P)
  | hideT (e : Option HideEvent)
  | boundariesT (nodeRef : Option NodeSize) (win : WindowSize)

/-- One step of a mounted `Menu`: the transition updates the reducer state,
then the `subscribe dom events` effect reconciles the DOM listeners. -/
def step {P : Type} (disableBoundariesCheck : Bool) (w : MenuWorld P) :
    MenuTransition P → MenuWorld P
  | .showT nodeRef win params =>
    applyDomEffect { w with st := showTransition nodeRef disableBoundariesCheck win params w.st }
  | .hideT e =>
    applyDomEffect { w with st := hide e w.st }
  | .boundariesT nodeRef win =>
    applyDomEffect { w with st := boundariesUpdate nodeRef disableBoundariesCheck win w.st }

/-- The initial world of a freshly mounted `Menu`: the `useReducer` initial
state (invisible, at the origin, empty trigger event) with no DOM listeners
registered. -/
def initialWorld {P : Type} (e0 : TriggerEvent) (p0 : P) : MenuWorld P :=
  { st :=
      { x := 0, y := 0, visible := false, triggerEvent := e0,
        propsFromTrigger := p0, willLeave := false }
    keydownRegistered := false
    hideListeners := [] }

/-- The worlds a mounted `Menu` can reach from its initial state. -/
inductive Reachable {P : Type} (disableBoundariesCheck : Bool) (e0 : TriggerEvent) (p0 : P) :
    MenuWorld P → Prop
  | init : Reachable disableBoundariesCheck e0 p0 (initialWorld e0 p0)
  | tr (w : MenuWorld P) (t : MenuTransition P) :
      Reachable disableBoundariesCheck e0 p0 w →
      Reachable disableBoundariesCheck e0 p0 (step disableBoundariesCheck w t)

/-- A CSS inset value assigned by the `Submenu`'s `setPosition`:
`sidePadding` is the string `calc(100% + theme.spacing(3))`,
`negativePadding` is `calc(-1 * theme.spacing(2))`, and `unset` is the
literal `"unset"`. -/
inductive CssInset where
  | sidePadding
  | negativePadding
  | unset
deriving DecidableEq, Repr

/-- The inline style of the submenu panel node: its `top`, `left`, `bottom`
and `right` properties. -/
structure SubmenuStyle where
  top : CssInset
  left : CssInset
  bottom : CssInset
  right : CssInset
deriving DecidableEq, Repr

/-- The `right` and `bottom` edges of `getBoundingClientRect()` on the
submenu panel, read at the top of `setPosition`. -/
structure Rect where
  right : Int
  bottom : Int
deriving DecidableEq, Repr

/-- `setPosition` from the `Submenu` component: with no node attached it
does nothing; otherwise it reads the bounding rect, anchors the panel to
the right of and slightly above the parent item, then flips the horizontal
anchor when the rect overflows `window.innerWidth` and the vertical anchor
when it overflows `window.innerHeight`.  The argument carries the node's
rect and current style; the result is the node's style afterwards. -/
def setPosition (node : Option (Rect × SubmenuStyle)) (win : WindowSize) :
    Option (Rect × SubmenuStyle) :=
  match node with
  | none => none
  | some (rect, _style) =>
    let st1 : SubmenuStyle :=
      { top := .negativePadding, left := .sidePadding, bottom := .unset, right := .unset }
    let st2 :=
      if rect.right > win.innerWidth then
        { st1 with right := CssInset.sidePadding, left := CssInset.unset }
      else st1
    let st3 :=
      if rect.bottom > win.innerHeight then
        { st2 with top := CssInset.unset, bottom := CssInset.negativePadding }
      else st2
    some (rect, st3)

/-- What happens when an `Item` is clicked: nothing (disabled), a plain
`onClick` call (when `closeOnClick` is false), or `dispatchUserHandler`
(focus the node, schedule `contextMenu.hideAll` on blur, call `onClick`). -/
inductive ClickOutcome where
  | nothing
  | directOnClick
  | dispatchUser
deriving DecidableEq, Repr

/-- The `Item` component's `handleClick`, as the outcome it produces given
the evaluated `disabled` predicate and the `closeOnClick` prop. -/
def handleClick (isDisabled : Bool) (closeOnClick : Bool) : ClickOutcome :=
  if isDisabled then .nothing
  else if !closeOnClick then .directOnClick
  else .dispatchUser

/-- Whether a click outcome invokes the item's `onClick` callback. -/
def onClickInvoked : ClickOutcome → Bool
  | .nothing => false
  | .directOnClick => true
  | .dispatchUser => true

/-- The `Item` component's `registerItem` ref callback: the tracker gains
the node exactly when the node is non-null and the item is not disabled.
The tracker is modelled as the list of registered nodes (keyed by node,
as in the `Map` the source uses). -/
def registerItem {α : Type} (node : Option α) (isDisabled : Bool)
    (itemTracker : List α) : List α :=
  match node with
  | some n => if !isDisabled then itemTracker ++ [n] else itemTracker
  | none => itemTracker

/-- An event key of the event manager: a menu id, or `EVENT.HIDE_ALL` from
`src/constants`. -/
inductive EvKey where
  | menuEvent (id : String)
  | hideAll
deriving DecidableEq, Repr

/-- A handler a `Menu` subscribes: its `show` or its `hide`, tagged by the
menu's id (each mounted menu closes over its own state). -/
inductive Handler where
  | showH (id : String)
  | hideH (id : String)
deriving DecidableEq, Repr

/-- Modelled from the spec: the repository's `eventManager` (`src/core`,
not present under `src/`) is "a small pub/sub event manager used to
show/hide menus by id" — a registry of (event, handler) subscriptions with
`on`, `off` and `emit`. -/
abbrev EventManager : Type := List (EvKey × Handler)

/-- Modelled from the spec: `eventManager.on(event, handler)` records the
subscription. -/
def emOn (k : EvKey) (h : Handler) (m : EventManager) : EventManager :=
  (k, h) :: m

/-- Modelled from the spec: `eventManager.off(event, handler)` removes the
subscription. -/
def emOff (k : EvKey) (h : Handler) (m : EventManager) : EventManager :=
  m.filter (fun p => p ≠ (k, h))

/-- The handlers subscribed to an event, in subscription order. -/
def handlersFor (k : EvKey) (m : EventManager) : List Handler :=
  (m.filter (fun p => p.1 = k)).map Prod.snd

/-- The visibility of every menu, by id. -/
abbrev VisWorld : Type := String → Bool

/-- A handler's effect on menu visibility: a menu's `show` makes that menu
visible, its `hide` makes it invisible; no other menu is touched. -/
def applyHandler (h : Handler) (w : VisWorld) : VisWorld :=
  match h with
  | .showH i => fun j => if j = i then true else w j
  | .hideH i => fun j => if j = i then false else w j

/-- Modelled from the spec: `eventManager.emit(event)` runs every handler
subscribed to the event. -/
def emEmit (k : EvKey) (m : EventManager) (w : VisWorld) : VisWorld :=
  (handlersFor k m).foldl (fun w h => applyHandler h w) w

/-- The `Menu` mount effect: `eventManager.on(id, show).on(EVENT.HIDE_ALL, hide)`. -/
def mountMenu (i : String) (m : EventManager) : EventManager :=
  emOn .hideAll (.hideH i) (emOn (.menuEvent i) (.showH i) m)

/-- The `Menu` unmount cleanup: `eventManager.off(id, show).off(EVENT.HIDE_ALL, hide)`. -/
def unmountMenu (i : String) (m : EventManager) : EventManager :=
  emOff .hideAll (.hideH i) (emOff (.menuEvent i) (.showH i) m)

/-- The event manager after mounting each menu of `ids` into an empty
manager. -/
def mountAll (ids : List String) : EventManager :=
  ids.foldr mountMenu []

/-! ## Theorems -/

/-- C1: with boundary checking enabled and the menu node attached, a
coordinate that overflows the viewport is reduced by exactly the overflow,
so the clamped edge of the menu meets the viewport edge, and a coordinate
that does not overflow is returned unchanged. -/
theorem checkBoundaries_clamps_to_viewport (node : NodeSize) (win : WindowSize) (x y : Int) :
    (x + node.offsetWidth > win.innerWidth →
      (checkBoundaries (some node) false win x y).x = x - (x + node.offsetWidth - win.innerWidth) ∧
      (checkBoundaries (some node) false win x y).x + node.offsetWidth = win.innerWidth) ∧
    (x + node.offsetWidth ≤ win.innerWidth →
      (checkBoundaries (some node) false win x y).x = x) ∧
    (y + node.offsetHeight > win.innerHeight →
      (checkBoundaries (some node) false win x y).y = y - (y + node.offsetHeight - win.innerHeight) ∧
      (checkBoundaries (some node) false win x y).y + node.offsetHeight = win.innerHeight) ∧
    (y + node.offsetHeight ≤ win.innerHeight →
      (checkBoundaries (some node) false win x y).y = y) := by
  refine ⟨fun h => ?_, fun h => ?_, fun h => ?_, fun h => ?_⟩ <;>
    simp only [checkBoundaries] <;> split_ifs <;> simp <;> omega

/-- Witness for C1: concrete evaluations at an overflowing x with a fitting
y and vice versa. -/
theorem checkBoundaries_clamps_to_viewport_witness :
    (checkBoundaries (some ⟨50, 40⟩) false ⟨100, 100⟩ 80 10).x = 80 - (80 + 50 - 100) ∧
    (checkBoundaries (some ⟨50, 40⟩) false ⟨100, 100⟩ 80 10).x + 50 = 100 ∧
    (checkBoundaries (some ⟨50, 40⟩) false ⟨100, 100⟩ 80 10).y = 10 ∧
    (checkBoundaries (some ⟨60, 120⟩) false ⟨100, 100⟩ 10 30).y = 30 - (30 + 120 - 100) ∧
    (checkBoundaries (some ⟨60, 120⟩) false ⟨100, 100⟩ 10 30).x = 10 := by
  have h1 := checkBoundaries_clamps_to_viewport ⟨50, 40⟩ ⟨100, 100⟩ 80 10
  have h2 := checkBoundaries_clamps_to_viewport ⟨60, 120⟩ ⟨100, 100⟩ 10 30
  exact ⟨(h1.1 (by decide)).1, (h1.1 (by decide)).2, h1.2.2.2 (by decide),
    (h2.2.2.1 (by decide)).1, h2.2.1 (by decide)⟩

/-- C8: the position returned by `getMousePosition` is componentwise
nonnegative, and a raw coordinate that is `undefined`, `NaN`, zero or
negative comes out as `0`. -/
theorem getMousePosition_nonneg (e : TriggerEvent) :
    0 ≤ (getMousePosition e).x ∧ 0 ≤ (getMousePosition e).y ∧
    ((rawClientX e = .undef ∨ rawClientX e = .nan ∨ ∃ v, v ≤ 0 ∧ rawClientX e = .val v) →
      (getMousePosition e).x = 0) ∧
    ((rawClientY e = .undef ∨ rawClientY e = .nan ∨ ∃ v, v ≤ 0 ∧ rawClientY e = .val v) →
      (getMousePosition e).y = 0) := by
  unfold getMousePosition
  rcases hx : rawClientX e with _ | _ | vx <;> rcases hy : rawClientY e with _ | _ | vy <;>
    simp [JsNum.falsy, JsNum.ltZero, JsNum.toInt] <;>
    constructor <;> omega

/-- Witness for C8: a keyboard-like event with a negative `clientX` and an
`undefined` `clientY` yields the origin. -/
theorem getMousePosition_nonneg_witness :
    (0 ≤ (getMousePosition ⟨.val (-3), .undef, none⟩).x ∧
      (getMousePosition ⟨.val (-3), .undef, none⟩).x = 0) ∧
    (getMousePosition ⟨.val (-3), .undef, none⟩).y = 0 := by
  have h := getMousePosition_nonneg ⟨.val (-3), .undef, none⟩
  exact ⟨⟨h.1, h.2.2.1 (Or.inr (Or.inr ⟨-3, by decide, rfl⟩))⟩, h.2.2.2 (Or.inl rfl)⟩

/-- Counterexample for C4 as stated: a mouse event with `clientX = -5` does
not come back with its own `clientX`; the coordinate is clamped to `0`. -/
theorem getMousePosition_counterexample :
    getMousePosition ⟨.val (-5), .val 7, none⟩ ≠ { x := -5, y := 7 } := by decide

/-- C4 (amended): a coordinate survives `getMousePosition` exactly when it
is numeric, nonzero and nonnegative — taken from the event's `clientX` /
`clientY` for a mouse event and from the first entry of `changedTouches`
for a touch event — and `show` positions the menu at the boundary-clamped
explicit position argument when one is given, otherwise at the
boundary-clamped `getMousePosition` of the trigger event. -/
theorem getMousePosition_show_positioning {P : Type} (e : TriggerEvent)
    (nodeRef : Option NodeSize) (dbc : Bool) (win : WindowSize)
    (params : ShowContextMenuParams P) (s : MenuState P) :
    (e.firstChangedTouch = none →
      ((e.clientX.falsy || e.clientX.ltZero) = false →
        (getMousePosition e).x = e.clientX.toInt) ∧
      ((e.clientX.falsy || e.clientX.ltZero) = true →
        (getMousePosition e).x = 0) ∧
      ((e.clientY.falsy || e.clientY.ltZero) = false →
        (getMousePosition e).y = e.clientY.toInt) ∧
      ((e.clientY.falsy || e.clientY.ltZero) = true →
        (getMousePosition e).y = 0)) ∧
    (∀ tx ty, e.firstChangedTouch = some (tx, ty) →
      ((tx.falsy || tx.ltZero) = false → (getMousePosition e).x = tx.toInt) ∧
      ((tx.falsy || tx.ltZero) = true → (getMousePosition e).x = 0) ∧
      ((ty.falsy || ty.ltZero) = false → (getMousePosition e).y = ty.toInt) ∧
      ((ty.falsy || ty.ltZero) = true → (getMousePosition e).y = 0)) ∧
    (∀ p, params.position = some p →
      showTransition nodeRef dbc win params s =
        { s with
            visible := true, willLeave := false,
            x := (checkBoundaries nodeRef dbc win p.x p.y).x,
            y := (checkBoundaries nodeRef dbc win p.x p.y).y,
            triggerEvent := params.event, propsFromTrigger := params.props }) ∧
    (params.position = none →
      showTransition nodeRef dbc win params s =
        { s with
            visible := true, willLeave := false,
            x := (checkBoundaries nodeRef dbc win
              (getMousePosition params.event).x (getMousePosition params.event).y).x,
            y := (checkBoundaries nodeRef dbc win
              (getMousePosition params.event).x (getMousePosition params.event).y).y,
            triggerEvent := params.event, propsFromTrigger := params.props }) := by
  refine ⟨fun ht => ?_, fun tx ty ht => ?_, fun p hp => ?_, fun hp => ?_⟩
  · refine ⟨fun hc => ?_, fun hc => ?_, fun hc => ?_, fun hc => ?_⟩ <;>
      simp [getMousePosition, rawClientX, rawClientY, ht, hc]
  · refine ⟨fun hc => ?_, fun hc => ?_, fun hc => ?_, fun hc => ?_⟩ <;>
      simp [getMousePosition, rawClientX, rawClientY, ht, hc]
  · simp [showTransition, hp]
  · simp [showTransition, hp]

/-- Witness for C4 (amended): a concrete mouse event whose positive
coordinate passes through, one whose negative coordinate is clamped to 0,
and an explicit position. -/
theorem getMousePosition_show_positioning_witness :
    (getMousePosition ⟨.val 11, .val 22, none⟩).x = 11 ∧
    (getMousePosition ⟨.val (-5), .val 7, none⟩).x = 0 ∧
    showTransition (P := Unit) none false ⟨100, 100⟩
        ⟨⟨.val 11, .val 22, none⟩, (), some ⟨3, 4⟩⟩
        ⟨0, 0, false, ⟨.undef, .undef, none⟩, (), false⟩ =
      ⟨3, 4, true, ⟨.val 11, .val 22, none⟩, (), false⟩ := by
  have h := getMousePosition_show_positioning (P := Unit) ⟨.val 11, .val 22, none⟩
    none false ⟨100, 100⟩ ⟨⟨.val 11, .val 22, none⟩, (), some ⟨3, 4⟩⟩
    ⟨0, 0, false, ⟨.undef, .undef, none⟩, (), false⟩
  have h2 := getMousePosition_show_positioning (P := Unit) ⟨.val (-5), .val 7, none⟩
    none false ⟨100, 100⟩ ⟨⟨.val 11, .val 22, none⟩, (), some ⟨3, 4⟩⟩
    ⟨0, 0, false, ⟨.undef, .undef, none⟩, (), false⟩
  exact ⟨((h.1 rfl).1 (by decide)).trans rfl, (h2.1 rfl).2.1 (by decide),
    (h.2.2.1 ⟨3, 4⟩ rfl).trans rfl⟩

/-- C5: `hide` leaves the state completely unchanged on a non-null event
with `button === 2` or `ctrlKey` whose type is not `"contextmenu"`, and in
every other case (including no event) sets `visible` to `false`. -/
theorem hide_ignores_right_click {P : Type} (s : MenuState P) (ev : HideEvent) :
    (((ev.button = some 2 ∨ ev.ctrlKey = true) ∧ ev.type ≠ "contextmenu") →
      hide (some ev) s = s) ∧
    (¬ ((ev.button = some 2 ∨ ev.ctrlKey = true) ∧ ev.type ≠ "contextmenu") →
      (hide (some ev) s).visible = false) ∧
    (hide (none : Option HideEvent) s).visible = false := by
  have hguard : hideEarlyReturn ev = true ↔
      ((ev.button = some 2 ∨ ev.ctrlKey = true) ∧ ev.type ≠ "contextmenu") := by
    simp [hideEarlyReturn]
  refine ⟨fun h => ?_, fun h => ?_, ?_⟩
  · simp [hide, hguard.mpr h]
  · have hg : hideEarlyReturn ev = false := by
      cases hv : hideEarlyReturn ev
      · rfl
      · exact absurd (hguard.mp hv) h
    cases hs : s.visible <;> simp [hide, hg, hs]
  · cases hs : s.visible <;> simp [hide, hs]

/-- Witness for C5: a ctrl-click event freezes the state; a plain click
hides a visible menu. -/
theorem hide_ignores_right_click_witness :
    hide (some ⟨some 0, true, "click"⟩)
        (⟨1, 2, true, ⟨.undef, .undef, none⟩, (), false⟩ : MenuState Unit) =
      ⟨1, 2, true, ⟨.undef, .undef, none⟩, (), false⟩ ∧
    (hide (some ⟨some 0, false, "click"⟩)
        (⟨1, 2, true, ⟨.undef, .undef, none⟩, (), false⟩ : MenuState Unit)).visible = false := by
  have h1 := hide_ignores_right_click
    (⟨1, 2, true, ⟨.undef, .undef, none⟩, (), false⟩ : MenuState Unit) ⟨some 0, true, "click"⟩
  have h2 := hide_ignores_right_click
    (⟨1, 2, true, ⟨.undef, .undef, none⟩, (), false⟩ : MenuState Unit) ⟨some 0, false, "click"⟩
  exact ⟨h1.1 (by simp), h2.2.1 (by simp)⟩

/-- C9: `hide` changes at most the `visible` field — `x`, `y`,
`triggerEvent`, `propsFromTrigger` and `willLeave` are preserved — and on
an already-invisible menu the state is unchanged entirely. -/
theorem hide_frame (P : Type) (e : Option HideEvent) (s : MenuState P) :
    (hide e s).x = s.x ∧ (hide e s).y = s.y ∧
    (hide e s).triggerEvent = s.triggerEvent ∧
    (hide e s).propsFromTrigger = s.propsFromTrigger ∧
    (hide e s).willLeave = s.willLeave ∧
    (s.visible = false → hide e s = s) := by
  rcases s with ⟨x, y, v, te, pf, wl⟩
  rcases e with _ | ev
  · refine ⟨rfl, rfl, rfl, rfl, rfl, fun h => ?_⟩
    simp only [] at h
    subst h
    rfl
  · by_cases hg : hideEarlyReturn ev = true
    · simp [hide, hg]
    · have hg2 : hideEarlyReturn ev = false := by
        cases hv : hideEarlyReturn ev
        · rfl
        · exact absurd hv hg
      refine ⟨?_, ?_, ?_, ?_, ?_, fun h => ?_⟩
      · simp [hide, hg2]
      · simp [hide, hg2]
      · simp [hide, hg2]
      · simp [hide, hg2]
      · simp [hide, hg2]
      · simp only [] at h
        subst h
        simp [hide, hg2]

/-- Witness for C9: hiding an already-invisible menu is a no-op. -/
theorem hide_frame_witness :
    hide none (⟨5, 6, false, ⟨.undef, .undef, none⟩, (), true⟩ : MenuState Unit) =
      ⟨5, 6, false, ⟨.undef, .undef, none⟩, (), true⟩ := by
  exact (hide_frame Unit none
    (⟨5, 6, false, ⟨.undef, .undef, none⟩, (), true⟩ : MenuState Unit)).2.2.2.2.2 rfl

/-- C2: the visible menu's keydown handler sends ArrowUp to `moveUp`,
ArrowDown to `moveDown`, ArrowRight to `openSubmenu`, ArrowLeft to
`closeSubmenu`, Escape to hiding the menu; Enter and Space call
`openSubmenu` and hide the menu exactly when it returns `false`; every
other key goes to `matchKeys`. -/
theorem handleKeyboard_dispatch (pd r : Bool) :
    handleKeyboard pd r "ArrowUp" =
      (if pd then [KeyEffect.prevDefault] else []) ++ [KeyEffect.moveUp] ∧
    handleKeyboard pd r "ArrowDown" =
      (if pd then [KeyEffect.prevDefault] else []) ++ [KeyEffect.moveDown] ∧
    handleKeyboard pd r "ArrowRight" =
      (if pd then [KeyEffect.prevDefault] else []) ++ [KeyEffect.openSubmenu] ∧
    handleKeyboard pd r "ArrowLeft" =
      (if pd then [KeyEffect.prevDefault] else []) ++ [KeyEffect.closeSubmenu] ∧
    handleKeyboard pd r "Escape" = [KeyEffect.hideMenu] ∧
    handleKeyboard pd r "Enter" =
      KeyEffect.openSubmenu :: (if r then [] else [KeyEffect.hideMenu]) ∧
    handleKeyboard pd r " " =
      KeyEffect.openSubmenu :: (if r then [] else [KeyEffect.hideMenu]) ∧
    (KeyEffect.hideMenu ∈ handleKeyboard pd r "Enter" ↔ r = false) ∧
    (KeyEffect.hideMenu ∈ handleKeyboard pd r " " ↔ r = false) ∧
    ∀ k : String,
      k ∉ (["Enter", " ", "Escape", "ArrowUp", "ArrowDown", "ArrowRight", "ArrowLeft"] :
        List String) →
      handleKeyboard pd r k = [KeyEffect.matchKeys] := by
  refine ⟨?_, ?_, ?_, ?_, ?_, ?_, ?_, ?_, ?_, fun k hk => ?_⟩
  · cases pd <;> rfl
  · cases pd <;> rfl
  · cases pd <;> rfl
  · cases pd <;> rfl
  · rfl
  · rfl
  · rfl
  · cases r <;> simp [handleKeyboard]
  · cases r <;> simp [handleKeyboard]
  · simp only [List.mem_cons, List.not_mem_nil, or_false, not_or] at hk
    obtain ⟨h1, h2, h3, h4, h5, h6, h7⟩ := hk
    simp [handleKeyboard, h1, h2, h3, h4, h5, h6, h7]

/-- Witness for C2: the letter `c` is not one of the handled keys and goes
to `matchKeys`. -/
theorem handleKeyboard_dispatch_witness :
    handleKeyboard true true "c" = [KeyEffect.matchKeys] ∧
    handleKeyboard true false "Escape" = [KeyEffect.hideMenu] := by
  have h := handleKeyboard_dispatch true true
  have h2 := handleKeyboard_dispatch true false
  exact ⟨h.2.2.2.2.2.2.2.2.2 "c" (by decide), h2.2.2.2.2.1⟩

/-- C6: in every reachable world of a mounted `Menu`, the keydown handler
and the hide-on-event listeners are registered exactly when the menu is
visible, `visible` can change only through a `show` or `hide` transition,
`show` sets it to `true` together with the position, trigger event and
forwarded props, and `hide` either sets it to `false` or (on the guarded
events) leaves the state untouched. -/
theorem menu_listener_invariant {P : Type} (dbc : Bool) (e0 : TriggerEvent) (p0 : P)
    (w : MenuWorld P) (hw : Reachable dbc e0 p0 w) :
    (w.keydownRegistered = w.st.visible ∧
      w.hideListeners = (if w.st.visible then hideOnEvents else [])) ∧
    (∀ t : MenuTransition P, (step dbc w t).st.visible ≠ w.st.visible →
      (∃ n win p, t = MenuTransition.showT n win p) ∨
      (∃ e, t = MenuTransition.hideT e)) ∧
    (∀ n win p, (step dbc w (MenuTransition.showT n win p)).st.visible = true ∧
      (step dbc w (MenuTransition.showT n win p)).st.triggerEvent = p.event ∧
      (step dbc w (MenuTransition.showT n win p)).st.propsFromTrigger = p.props ∧
      (step dbc w (MenuTransition.showT n win p)).st.x =
        (showTransition n dbc win p w.st).x ∧
      (step dbc w (MenuTransition.showT n win p)).st.y =
        (showTransition n dbc win p w.st).y) ∧
    (∀ e, (step dbc w (MenuTransition.hideT e)).st.visible = false ∨
      (step dbc w (MenuTransition.hideT e)).st = w.st) := by
  constructor
  · induction hw with
    | init => simp [initialWorld]
    | tr w' t ih => cases t <;> simp [step, applyDomEffect]
  refine ⟨fun t h => ?_, fun n win p => ?_, fun e => ?_⟩
  · cases t with
    | showT n win p => exact Or.inl ⟨n, win, p, rfl⟩
    | hideT e => exact Or.inr ⟨e, rfl⟩
    | boundariesT n win =>
      exact absurd
        (by by_cases hv : w.st.visible = true <;>
          simp [step, applyDomEffect, boundariesUpdate, hv]) h
  · exact ⟨rfl, rfl, rfl, rfl, rfl⟩
  · rcases e with _ | ev
    · exact Or.inl (by cases hv : w.st.visible <;> simp [step, applyDomEffect, hide, hv])
    · by_cases hg : hideEarlyReturn ev = true
      · exact Or.inr (by simp [step, applyDomEffect, hide, hg])
      · have hg2 : hideEarlyReturn ev = false := by
          cases hv : hideEarlyReturn ev
          · rfl
          · exact absurd hv hg
        exact Or.inl
          (by cases hv : w.st.visible <;> simp [step, applyDomEffect, hide, hg2, hv])

/-- Witness for C6: the freshly mounted menu is invisible with no listeners
registered. -/
theorem menu_listener_invariant_witness :
    (initialWorld (P := Unit) ⟨.undef, .undef, none⟩ ()).keydownRegistered =
      (initialWorld (P := Unit) ⟨.undef, .undef, none⟩ ()).st.visible ∧
    (initialWorld (P := Unit) ⟨.undef, .undef, none⟩ ()).hideListeners =
      (if (initialWorld (P := Unit) ⟨.undef, .undef, none⟩ ()).st.visible
        then hideOnEvents else []) := by
  exact (menu_listener_invariant false ⟨.undef, .undef, none⟩ () _ Reachable.init).1

/-- C7: `setPosition` does nothing without a node; otherwise it anchors the
panel to the right of and slightly above the parent, flipping to the left
side when the rect's right edge overflows the window and to bottom-aligned
when its bottom edge does. -/
theorem setPosition_anchors (rect : Rect) (st : SubmenuStyle) (win : WindowSize) :
    setPosition none win = none ∧
    (rect.right ≤ win.innerWidth → rect.bottom ≤ win.innerHeight →
      setPosition (some (rect, st)) win = some (rect,
        { top := .negativePadding, left := .sidePadding,
          bottom := .unset, right := .unset })) ∧
    (rect.right > win.innerWidth → rect.bottom ≤ win.innerHeight →
      setPosition (some (rect, st)) win = some (rect,
        { top := .negativePadding, left := .unset,
          bottom := .unset, right := .sidePadding })) ∧
    (rect.right ≤ win.innerWidth → rect.bottom > win.innerHeight →
      setPosition (some (rect, st)) win = some (rect,
        { top := .unset, left := .sidePadding,
          bottom := .negativePadding, right := .unset })) ∧
    (rect.right > win.innerWidth → rect.bottom > win.innerHeight →
      setPosition (some (rect, st)) win = some (rect,
        { top := .unset, left := .unset,
          bottom := .negativePadding, right := .sidePadding })) := by
  refine ⟨rfl, fun h1 h2 => ?_, fun h1 h2 => ?_, fun h1 h2 => ?_, fun h1 h2 => ?_⟩ <;>
    simp [setPosition, not_lt.mpr, h1, h2]

/-- Witness for C7: a panel fitting the window keeps the default anchors;
one overflowing on the right flips horizontally. -/
theorem setPosition_anchors_witness :
    setPosition (some (⟨50, 50⟩, ⟨.unset, .unset, .unset, .unset⟩)) ⟨100, 100⟩ =
      some (⟨50, 50⟩,
        { top := .negativePadding, left := .sidePadding,
          bottom := .unset, right := .unset }) ∧
    setPosition (some (⟨150, 50⟩, ⟨.unset, .unset, .unset, .unset⟩)) ⟨100, 100⟩ =
      some (⟨150, 50⟩,
        { top := .negativePadding, left := .unset,
          bottom := .unset, right := .sidePadding }) := by
  have h1 := setPosition_anchors ⟨50, 50⟩ ⟨.unset, .unset, .unset, .unset⟩ ⟨100, 100⟩
  have h2 := setPosition_anchors ⟨150, 50⟩ ⟨.unset, .unset, .unset, .unset⟩ ⟨100, 100⟩
  exact ⟨h1.2.1 (by decide) (by decide), h2.2.2.1 (by decide) (by decide)⟩

/-- C10: an `Item` whose `disabled` predicate evaluates to `true` never has
its `onClick` invoked by a click, and its node is never added to the item
tracker. -/
theorem disabled_item_inert {P α : Type} (predicate : BooleanPredicate P) (payload : P)
    (closeOnClick : Bool) (node : Option α) (itemTracker : List α)
    (hd : getPredicateValue predicate payload = true) :
    onClickInvoked (handleClick (getPredicateValue predicate payload) closeOnClick) = false ∧
    registerItem node (getPredicateValue predicate payload) itemTracker = itemTracker := by
  rw [hd]
  refine ⟨rfl, ?_⟩
  rcases node with _ | n
  · rfl
  · simp [registerItem]

/-- Witness for C10: a concretely disabled item with a node and a pending
tracker. -/
theorem disabled_item_inert_witness :
    onClickInvoked (handleClick
      (getPredicateValue (Sum.inl true : BooleanPredicate Unit) ()) true) = false ∧
    registerItem (some 7)
      (getPredicateValue (Sum.inl true : BooleanPredicate Unit) ()) [5] = [5] := by
  exact disabled_item_inert (Sum.inl true) () true (some 7) [5] rfl

/-- After a mount, a menu-id event key carries the mounted menu's `show`
handler (when the ids match) in front of the existing handlers. -/
theorem handlersFor_mount_menuEvent (q i : String) (m : EventManager) :
    handlersFor (.menuEvent q) (mountMenu i m) =
      (if i = q then [Handler.showH i] else []) ++ handlersFor (.menuEvent q) m := by
  by_cases h : i = q <;>
    simp [handlersFor, mountMenu, emOn, List.filter_cons, h]

/-- After a mount, `HIDE_ALL` carries the mounted menu's `hide` handler in
front of the existing handlers. -/
theorem handlersFor_mount_hideAll (i : String) (m : EventManager) :
    handlersFor .hideAll (mountMenu i m) =
      Handler.hideH i :: handlersFor .hideAll m := by
  simp [handlersFor, mountMenu, emOn, List.filter_cons]

/-- Emitting a menu-id event through a mount first runs the mounted menu's
`show` handler when the ids match. -/
theorem emEmit_mountMenu_menuEvent (q i : String) (m : EventManager) (w : VisWorld) :
    emEmit (.menuEvent q) (mountMenu i m) w =
      emEmit (.menuEvent q) m (if i = q then applyHandler (.showH i) w else w) := by
  unfold emEmit
  rw [handlersFor_mount_menuEvent]
  by_cases h : i = q <;> simp [h]

/-- Emitting `HIDE_ALL` through a mount first runs the mounted menu's
`hide` handler. -/
theorem emEmit_mountMenu_hideAll (i : String) (m : EventManager) (w : VisWorld) :
    emEmit .hideAll (mountMenu i m) w =
      emEmit .hideAll m (applyHandler (.hideH i) w) := by
  unfold emEmit
  rw [handlersFor_mount_hideAll]
  simp

/-- Emitting a menu id over the mounted menus makes exactly that menu
visible, when it is mounted, and touches no other menu. -/
theorem emEmit_mountAll_menuEvent (q j : String) (ids : List String) (w : VisWorld) :
    emEmit (.menuEvent q) (mountAll ids) w j =
      (if q ∈ ids ∧ j = q then true else w j) := by
  induction ids generalizing w with
  | nil => simp [mountAll, emEmit, handlersFor]
  | cons i t ih =>
    rw [show mountAll (i :: t) = mountMenu i (mountAll t) from rfl,
      emEmit_mountMenu_menuEvent, ih]
    by_cases hiq : i = q
    · subst hiq
      by_cases hj : j = i <;> simp [applyHandler, hj]
    · have hqi : ¬ q = i := fun h => hiq h.symm
      simp [hiq, hqi]

/-- Emitting `HIDE_ALL` over the mounted menus hides every mounted menu and
touches no other menu. -/
theorem emEmit_mountAll_hideAll (j : String) (ids : List String) (w : VisWorld) :
    emEmit .hideAll (mountAll ids) w j = (if j ∈ ids then false else w j) := by
  induction ids generalizing w with
  | nil => simp [mountAll, emEmit, handlersFor]
  | cons i t ih =>
    rw [show mountAll (i :: t) = mountMenu i (mountAll t) from rfl,
      emEmit_mountMenu_hideAll, ih]
    by_cases hj : j = i
    · subst hj
      simp [applyHandler]
    · simp [applyHandler, hj]

/-- The unmount cleanup removes exactly the two subscriptions the mount
added, restoring the manager, provided they were not already present. -/
theorem unmountMenu_mountMenu (i : String) (m : EventManager)
    (h1 : (EvKey.menuEvent i, Handler.showH i) ∉ m)
    (h2 : (EvKey.hideAll, Handler.hideH i) ∉ m) :
    unmountMenu i (mountMenu i m) = m := by
  simp only [unmountMenu, mountMenu, emOn, emOff, List.filter_cons]
  simp
  intro a b hab
  refine ⟨fun ha hb => h2 ?_, fun ha hb => h1 ?_⟩
  · rw [ha, hb] at hab
    exact hab
  · rw [ha, hb] at hab
    exact hab

/-- C3: a mounted `Menu` subscribes its `show` to its id and its `hide` to
`EVENT.HIDE_ALL`, unmounting removes exactly those subscriptions, and hence
emitting a menu id shows exactly that menu (when mounted) and emitting
`HIDE_ALL` hides every mounted menu, leaving all other menus untouched. -/
theorem menu_event_subscriptions (i q j : String) (m : EventManager)
    (ids : List String) (w : VisWorld)
    (h1 : (EvKey.menuEvent i, Handler.showH i) ∉ m)
    (h2 : (EvKey.hideAll, Handler.hideH i) ∉ m) :
    unmountMenu i (mountMenu i m) = m ∧
    emEmit (.menuEvent q) (mountAll ids) w j =
      (if q ∈ ids ∧ j = q then true else w j) ∧
    emEmit .hideAll (mountAll ids) w j = (if j ∈ ids then false else w j) :=
  ⟨unmountMenu_mountMenu i m h1 h2, emEmit_mountAll_menuEvent q j ids w,
    emEmit_mountAll_hideAll j ids w⟩

/-- Witness for C3: two mounted menus; emitting the first id shows it, and
`HIDE_ALL` hides the second. -/
theorem menu_event_subscriptions_witness :
    unmountMenu "a" (mountMenu "a" []) = [] ∧
    emEmit (.menuEvent "a") (mountAll ["a", "b"]) (fun _ => false) "a" = true ∧
    emEmit .hideAll (mountAll ["a", "b"]) (fun _ => true) "b" = false := by
  have hA := menu_event_subscriptions "a" "a" "a" [] ["a", "b"] (fun _ => false)
    (by simp) (by simp)
  have hB := menu_event_subscriptions "a" "a" "b" [] ["a", "b"] (fun _ => true)
    (by simp) (by simp)
  refine ⟨hA.1, ?_, ?_⟩
  · rw [hA.2.1]
    simp
  · rw [hB.2.2]
    simp

end Contexify
